import Mathlib

/-!
Verification development for the ari-rtt-echo service.

Shallow embedding of the Go sources:
  - internal/rtp/sequence_tracker.go  (SequenceTracker, PacketPacer, Worker)
  - internal/rtp latency tracker      (LatencyTracker)
  - internal/metrics                  (Metrics, GetGlobalStats)
  - cmd/ari-service/main.go           (createChannel, handleStasisStart,
                                       cleanupChannel, PortManager)

Machine integers are modelled as Nat with explicit reduction modulo 2^16
(Go uint16) and 2^32 (Go uint32) at every operation where the source
performs fixed-width arithmetic.  Monotonic instants and durations are
modelled in nanoseconds as Nat (Go time.Time / time.Duration), float64
latency samples as rationals.
-/

namespace ARE

/-- Reduction modulo 2^32, the result type of every Go uint32 operation. -/
def u32 (n : Nat) : Nat := n % 4294967296

/-- Go uint32 subtraction a - b for a, b < 2^32 (wraps on underflow). -/
def u32sub (a b : Nat) : Nat := (a + 4294967296 - b) % 4294967296

/-- Go uint16 reduction. -/
def u16 (n : Nat) : Nat := n % 65536

/-! ## SequenceTracker (internal/rtp/sequence_tracker.go) -/

/-- State of `SequenceTracker`: last-seen sequence numbers (uint16) and
the three uint32 totals. -/
structure SequenceTracker where
  lastOutgoingSeq : Nat
  lastIncomingSeq : Nat
  outgoingCount : Nat
  incomingCount : Nat
  droppedCount : Nat
deriving Repr, DecidableEq

/-- `NewSequenceTracker` - zero value of the struct. -/
def SequenceTracker.new : SequenceTracker := ⟨0, 0, 0, 0, 0⟩

/-- `SequenceTracker.TrackOutgoing`. -/
def trackOutgoing (s : SequenceTracker) (seq : Nat) : SequenceTracker :=
  { s with lastOutgoingSeq := u16 seq, outgoingCount := u32 (s.outgoingCount + 1) }

/-- `SequenceTracker.TrackIncoming`: increments the incoming count, and if a
gap relative to `lastIncomingSeq + 1` (uint16) is seen, computes the dropped
count - wrap branch `(0xFFFF - last) + seq - 1`, normal branch
`seq - last - 1`, both in uint32 arithmetic - adds it to `droppedCount` and
returns it; with a gap detected the function returns before the final
`s.lastIncomingSeq = seq` assignment, so the last-seen value is only
advanced on in-order packets (or when the previous last-seen value is 0). -/
def trackIncoming (s : SequenceTracker) (seq : Nat) : SequenceTracker × Nat :=
  let s1 := { s with incomingCount := u32 (s.incomingCount + 1) }
  if s1.lastIncomingSeq ≠ 0 then
    let expectedSeq := u16 (s1.lastIncomingSeq + 1)
    if seq ≠ expectedSeq then
      let dropped :=
        if seq < s1.lastIncomingSeq then
          u32sub (u32 (u32sub 0xFFFF s1.lastIncomingSeq + seq)) 1
        else
          u32sub (u32sub seq s1.lastIncomingSeq) 1
      ({ s1 with droppedCount := u32 (s1.droppedCount + dropped) }, dropped)
    else
      ({ s1 with lastIncomingSeq := seq }, 0)
  else
    ({ s1 with lastIncomingSeq := seq }, 0)

/-- Run `TrackIncoming` over a list of inbound sequence numbers, collecting
the per-update returned gap counts. -/
def trackIncomingRun (s : SequenceTracker) : List Nat → SequenceTracker × List Nat
  | [] => (s, [])
  | seq :: rest =>
    let r := trackIncoming s seq
    let rr := trackIncomingRun r.1 rest
    (rr.1, r.2 :: rr.2)

/-! ## PacketPacer and late-packet detection (internal/rtp/sequence_tracker.go) -/

/-- State of `PacketPacer`: base media timestamp (uint32), base monotonic
instant in nanoseconds, and the sample rate in Hz. -/
structure PacketPacer where
  baseTimestamp : Nat
  baseTime : Nat
  sampleRate : Nat
deriving Repr, DecidableEq

/-- `NewPacketPacer` - zero base, given sample rate. -/
def PacketPacer.new (sampleRate : Nat) : PacketPacer := ⟨0, 0, sampleRate⟩

/-- `PacketPacer.CalculateDelay`: on `baseTimestamp == 0` the base fields are
(re)initialised from the current packet and clock and delay 0 is returned;
otherwise the scheduled instant is
`baseTime + (timestamp - baseTimestamp) * 1s / sampleRate` (uint32 timestamp
difference, nanosecond duration arithmetic) and the positive part of its
distance to `now` is the delay.  Returns (updated pacer, delay in ns). -/
def calculateDelay (p : PacketPacer) (timestamp now : Nat) : PacketPacer × Nat :=
  if p.baseTimestamp = 0 then
    ({ p with baseTimestamp := timestamp, baseTime := now }, 0)
  else
    let timestampDiff := u32sub timestamp p.baseTimestamp
    let expectedTime := p.baseTime + timestampDiff * 1000000000 / p.sampleRate
    if now < expectedTime then (p, expectedTime - now) else (p, 0)

/-- The worker fields `baseTimestamp`/`baseTime` used by
`Worker.checkLatePacket` (a second, independent copy of the base pair). -/
structure LateBase where
  baseTimestamp : Nat
  baseTime : Nat
deriving Repr, DecidableEq

/-- `Worker.checkLatePacket`: on `baseTimestamp == 0` the base pair is
(re)initialised and the packet is not late; otherwise the expected instant
is `baseTime + (ts - baseTimestamp) * 1s / 8000` and the packet is late when
`receiveTime` is strictly after `expected + 3ms`. -/
def checkLatePacket (w : LateBase) (timestamp receiveTime now : Nat) :
    LateBase × Bool :=
  if w.baseTimestamp = 0 then
    ({ baseTimestamp := timestamp, baseTime := now }, false)
  else
    let timestampDiff := u32sub timestamp w.baseTimestamp
    let expectedTime := w.baseTime + timestampDiff * 1000000000 / 8000
    let deadline := expectedTime + 3000000
    (w, decide (deadline < receiveTime))

/-- Fold `CalculateDelay` over a stream of (media timestamp, arrival instant)
packets, keeping the pacer state. -/
def runPacer (p : PacketPacer) (l : List (Nat × Nat)) : PacketPacer :=
  l.foldl (fun q x => (calculateDelay q x.1 x.2).1) p

/-- Fold `checkLatePacket` over a stream of (timestamp, receive, now)
triples, keeping the worker's base state. -/
def runLateBase (w : LateBase) (l : List (Nat × Nat × Nat)) : LateBase :=
  l.foldl (fun q x => (checkLatePacket q x.1 x.2.1 x.2.2).1) w

/-! ## Worker stop path (internal/rtp/sequence_tracker.go, Worker.Stop) -/

/-- Result of a `Worker.Stop` call.  Go run-time semantics: `close` of an
already-closed channel panics. -/
inductive StopOutcome
  | stopped
  | panicCloseOfClosedChannel
deriving Repr, DecidableEq

/-- The stop-relevant worker control state: whether `stopChan` has been
closed. -/
structure WorkerCtl where
  stopChanClosed : Bool
deriving Repr, DecidableEq

/-- `Worker.Stop` does `close(w.stopChan)` then waits on the WaitGroup; the
only state change visible to a later `Stop` is that the channel is closed.
Per the Go specification, closing a closed channel is a run-time panic. -/
def workerStop (w : WorkerCtl) : WorkerCtl × StopOutcome :=
  if w.stopChanClosed then (w, .panicCloseOfClosedChannel)
  else ({ stopChanClosed := true }, .stopped)

/-! ## LatencyTracker (internal/rtp latency tracker) -/

/-- Association-list lookup for the `map[uint16]time.Time` of sent times. -/
def lookupSeq : List (Nat × Nat) → Nat → Option Nat
  | [], _ => none
  | (k, v) :: rest, seq => if k = seq then some v else lookupSeq rest seq

/-- Go map assignment `m[seq] = t`: replace an existing binding, otherwise
add one. -/
def setSeq : List (Nat × Nat) → Nat → Nat → List (Nat × Nat)
  | [], seq, t => [(seq, t)]
  | (k, v) :: rest, seq, t =>
    if k = seq then (seq, t) :: rest else (k, v) :: setSeq rest seq t

/-- Go map `delete(m, seq)`. -/
def eraseSeq : List (Nat × Nat) → Nat → List (Nat × Nat)
  | [], _ => []
  | (k, v) :: rest, seq =>
    if k = seq then rest else (k, v) :: eraseSeq rest seq

/-- State of `LatencyTracker`: `sentTimes` maps a sequence number to the
monotonic send instant in nanoseconds; keys are unique (Go map). -/
structure LatencyTracker where
  sentTimes : List (Nat × Nat)
deriving Repr, DecidableEq

/-- `NewLatencyTracker`. -/
def LatencyTracker.new : LatencyTracker := ⟨[]⟩

/-- `LatencyTracker.RecordSent`: store `seq -> sendTime`, then sweep every
entry whose send instant is strictly before `now - 3s` (the age ceiling).
`now` is the clock read the sweep cutoff is taken from. -/
def recordSent (t : LatencyTracker) (seq sendTime now : Nat) : LatencyTracker :=
  ⟨(setSeq t.sentTimes seq sendTime).filter
    (fun e => decide (¬ e.2 < now - 3000000000))⟩

/-- `LatencyTracker.GetLatency`: when `seq` is present its entry is removed
and the round-trip time `now - sendTime` is returned with found = true;
otherwise found = false and the state is unchanged.  The RTT is an Int so
that its non-negativity is a statement, not a coercion artefact. -/
def getLatency (t : LatencyTracker) (seq now : Nat) :
    (Int × Bool) × LatencyTracker :=
  match lookupSeq t.sentTimes seq with
  | some sendTime => (((now : Int) - (sendTime : Int), true), ⟨eraseSeq t.sentTimes seq⟩)
  | none => ((0, false), t)

/-! ## Metrics store (internal/metrics) -/

/-- Per-channel metrics record: bounded latency sample buffer plus the
three int64 counters (overflow of int64 counters does not matter at these
magnitudes and is not modelled). -/
structure ChannelMetrics where
  channelID : String
  latencies : List Rat
  outgoingPackets : Nat
  droppedPackets : Nat
  latePackets : Nat
deriving Repr, DecidableEq

/-- The fresh record `LoadOrStore` installs on first touch of a channel. -/
def ChannelMetrics.fresh (id : String) : ChannelMetrics := ⟨id, [], 0, 0, 0⟩

/-- The metrics store: per-channel map (`sync.Map`, modelled as an
insertion-ordered association list with unique channel ids) and the two
global counters. -/
structure Metrics where
  channels : List ChannelMetrics
  totalChannels : Nat
  totalLatencies : Nat
deriving Repr, DecidableEq

/-- `NewMetrics`. -/
def Metrics.new : Metrics := ⟨[], 0, 0⟩

/-- `LoadOrStore` followed by a mutation of the (existing or fresh)
per-channel record, as every `Record*` method does. -/
def updateChannel : List ChannelMetrics → String → (ChannelMetrics → ChannelMetrics) →
    List ChannelMetrics
  | [], id, f => [f (ChannelMetrics.fresh id)]
  | c :: rest, id, f =>
    if c.channelID = id then f c :: rest else c :: updateChannel rest id f

/-- `Metrics.RecordLatency`: append the sample; when the buffer exceeds
10000 entries drop the oldest 1000; bump the global latency counter. -/
def recordLatency (m : Metrics) (id : String) (v : Rat) : Metrics :=
  { m with
    channels := updateChannel m.channels id (fun c =>
      let l2 := c.latencies ++ [v]
      { c with latencies := if 10000 < l2.length then l2.drop 1000 else l2 }),
    totalLatencies := m.totalLatencies + 1 }

/-- `Metrics.RecordDroppedPackets`. -/
def recordDroppedPackets (m : Metrics) (id : String) (count : Nat) : Metrics :=
  { m with
    channels := updateChannel m.channels id
      (fun c => { c with droppedPackets := c.droppedPackets + count }) }

/-- `Metrics.RecordOutgoingPacket`. -/
def recordOutgoingPacket (m : Metrics) (id : String) : Metrics :=
  { m with
    channels := updateChannel m.channels id
      (fun c => { c with outgoingPackets := c.outgoingPackets + 1 }) }

/-- `Metrics.RecordLatePacket`. -/
def recordLatePacket (m : Metrics) (id : String) : Metrics :=
  { m with
    channels := updateChannel m.channels id
      (fun c => { c with latePackets := c.latePackets + 1 }) }

/-- `Metrics.MarkChannelStarted`: bumps the global channel counter only;
it does not create a per-channel record. -/
def markChannelStarted (m : Metrics) (_id : String) : Metrics :=
  { m with totalChannels := m.totalChannels + 1 }

/-- The global rollup record returned by `GetGlobalStats`. -/
structure GlobalStats where
  totalChannels : Nat
  activeChannels : Nat
  totalLatencies : Nat
  p50Latency : Rat
  p95Latency : Rat
  p99Latency : Rat
  maxLatency : Rat
  avgLatency : Rat
  lateRatio : Rat
  packetLossRatio : Rat
deriving Repr, DecidableEq

/-- The accumulation the `channelMetrics.Range` body performs:
(all latencies, active channel count, dropped sum, late sum, outgoing sum). -/
def statsFold (l : List ChannelMetrics) (a : List Rat × Nat × Nat × Nat × Nat) :
    List Rat × Nat × Nat × Nat × Nat :=
  l.foldl (fun a c =>
    (a.1 ++ c.latencies, a.2.1 + 1, a.2.2.1 + c.droppedPackets,
      a.2.2.2.1 + c.latePackets, a.2.2.2.2 + c.outgoingPackets)) a

/-- `Metrics.GetGlobalStats`: walks the channel map accumulating samples and
counters; percentiles, average and the two ratios are computed only inside
the `len(allLatencies) > 0` block, and the ratios additionally only when
`totalPackets > 0`; all other fields of the result stay zero.  The float64
percentile index arithmetic `int(float64(n)*q)` is idealised to exact
integer arithmetic (no claim refers to the percentile fields). -/
def getGlobalStats (m : Metrics) : GlobalStats :=
  let acc := statsFold m.channels ([], 0, 0, 0, 0)
  let allLatencies := acc.1
  let activeChannels := acc.2.1
  let totalDropped := acc.2.2.1
  let totalLate := acc.2.2.2.1
  let totalPackets := acc.2.2.2.2
  let base : GlobalStats :=
    { totalChannels := m.totalChannels, activeChannels := activeChannels,
      totalLatencies := m.totalLatencies, p50Latency := 0, p95Latency := 0,
      p99Latency := 0, maxLatency := 0, avgLatency := 0, lateRatio := 0,
      packetLossRatio := 0 }
  if 0 < allLatencies.length then
    let sorted := allLatencies.insertionSort (· ≤ ·)
    let n := allLatencies.length
    { base with
      p50Latency := sorted.getD (n / 2) 0,
      p95Latency := sorted.getD (min (n * 95 / 100) (n - 1)) 0,
      p99Latency := sorted.getD (min (n * 99 / 100) (n - 1)) 0,
      maxLatency := sorted.getD (n - 1) 0,
      avgLatency := allLatencies.sum / (n : Rat),
      lateRatio :=
        if 0 < totalPackets then (totalLate : Rat) / (totalPackets : Rat) else 0,
      packetLossRatio :=
        if 0 < totalPackets then (totalDropped : Rat) / (totalPackets : Rat) else 0 }
  else base

/-- The concatenation of all per-channel latency buffers. -/
def allLatenciesOf (m : Metrics) : List Rat :=
  (m.channels.map ChannelMetrics.latencies).flatten

/-- Sum of the per-channel outbound counters. -/
def sumOutgoing (m : Metrics) : Nat :=
  (m.channels.map ChannelMetrics.outgoingPackets).sum

/-- Sum of the per-channel dropped counters. -/
def sumDropped (m : Metrics) : Nat :=
  (m.channels.map ChannelMetrics.droppedPackets).sum

/-- Sum of the per-channel late counters. -/
def sumLate (m : Metrics) : Nat :=
  (m.channels.map ChannelMetrics.latePackets).sum

/-- The operations the service performs against the metrics store over a
channel's lifetime.  `channelCleanup` is `ARIService.cleanupChannel`, whose
body (worker stop, port release, hangup, bridge delete) contains no metrics
store operation, so its effect on the store is the identity. -/
inductive MetricsOp where
  | recLatency (id : String) (v : Rat)
  | recDropped (id : String) (count : Nat)
  | recOutgoing (id : String)
  | recLate (id : String)
  | markStarted (id : String)
  | channelCleanup (id : String)
deriving Repr, DecidableEq

/-- Effect of one service operation on the metrics store. -/
def applyMetricsOp (m : Metrics) : MetricsOp → Metrics
  | .recLatency id v => recordLatency m id v
  | .recDropped id count => recordDroppedPackets m id count
  | .recOutgoing id => recordOutgoingPacket m id
  | .recLate id => recordLatePacket m id
  | .markStarted id => markChannelStarted m id
  | .channelCleanup _ => m

/-- Run a sequence of service operations against the metrics store. -/
def runMetricsOps (m : Metrics) (ops : List MetricsOp) : Metrics :=
  ops.foldl applyMetricsOp m

/-- The channel id an operation records a metric for (none for
`MarkChannelStarted` and for cleanup, which record no per-channel metric). -/
def touchedId : MetricsOp → Option String
  | .recLatency id _ => some id
  | .recDropped id _ => some id
  | .recOutgoing id => some id
  | .recLate id => some id
  | .markStarted _ => none
  | .channelCleanup _ => none

/-- Append a key if it is not already present. -/
def addIfAbsent (l : List String) (x : String) : List String :=
  if x ∈ l then l else l ++ [x]

/-- First-seen-order list of distinct ids. -/
def firstSeen (l : List String) : List String := l.foldl addIfAbsent []

/-! ## Lifecycle manager (cmd/ari-service/main.go) -/

/-- Association-list lookup for the active-channel map. -/
def lookupCh : List (String × Nat) → String → Option Nat
  | [], _ => none
  | (k, v) :: rest, id => if k = id then some v else lookupCh rest id

/-- Removal from the active-channel map. -/
def eraseCh : List (String × Nat) → String → List (String × Nat)
  | [], _ => []
  | (k, v) :: rest, id =>
    if k = id then rest else (k, v) :: eraseCh rest id

/-- Lifecycle state for the cleanup path: the active map
(`channelID -> record identity` for the stored `ChannelHandler`) and the
trace of cleanup-function invocations, by record identity. -/
structure ServiceState where
  chans : List (String × Nat)
  cleaned : List Nat
deriving Repr, DecidableEq

/-- `ARIService.cleanupChannel`: `sync.Map.LoadAndDelete` - atomically
remove the record and, only when one was present, invoke its cleanup
function (recorded here by appending the record identity to the trace).
The end handler, repeated end events and the zombie scrubber all funnel
into this function; because `LoadAndDelete` is atomic, any concurrent
interleaving of those callers is a sequence of these atomic calls. -/
def cleanupChannel (s : ServiceState) (id : String) : ServiceState :=
  match lookupCh s.chans id with
  | some rid => { chans := eraseCh s.chans id, cleaned := s.cleaned ++ [rid] }
  | none => s

/-- A sequence of `cleanupChannel` calls (end handler / zombie scrubber /
repeated end events, in any interleaved order). -/
def runCleanups (s : ServiceState) (ids : List String) : ServiceState :=
  ids.foldl cleanupChannel s

/-- Outcomes of the engine/client calls `createChannel` makes, in program
order.  `none` means the call failed (returned an error).  `addChannelOk`
is `AddChannelToBridge bridgeID channelID` success. -/
structure EngineEnv where
  portAlloc : Option Nat
  echoPortParse : Option Nat
  createBridgeResult : Option String
  createExternalMediaResult : Option String
  addChannelOk : String → String → Bool

/-- Externally visible actions the begin handler can perform besides the
client calls whose outcomes `EngineEnv` fixes. -/
inductive Action where
  | releasePort (port : Nat)
  | hangupChannel (id : String)
  | deleteBridge (id : String)
  | startWorker (port : Nat)
  | storeRecord (id : String)
  | markStarted (id : String)
deriving Repr, DecidableEq

/-- `ARIService.createChannel`: allocate a port, parse the echo port,
create the bridge, create the external-media channel, attach both to the
bridge; on any failure after the port allocation the code releases the
port and returns an error - and performs no other teardown action; on
success it starts the worker, stores the handler in the active map and
marks the channel started.  Returns (action trace, updated active map,
success flag). -/
def createChannel (env : EngineEnv) (channelID : String) (chans : List String) :
    List Action × List String × Bool :=
  match env.portAlloc with
  | none => ([], chans, false)
  | some rtpPort =>
    match env.echoPortParse with
    | none => ([.releasePort rtpPort], chans, false)
    | some _ =>
      match env.createBridgeResult with
      | none => ([.releasePort rtpPort], chans, false)
      | some bridgeID =>
        match env.createExternalMediaResult with
        | none => ([.releasePort rtpPort], chans, false)
        | some externalMediaID =>
          if env.addChannelOk bridgeID channelID then
            if env.addChannelOk bridgeID externalMediaID then
              ([.startWorker rtpPort, .storeRecord channelID, .markStarted channelID],
                chans ++ [channelID], true)
            else ([.releasePort rtpPort], chans, false)
          else ([.releasePort rtpPort], chans, false)

/-- `ARIService.handleStasisStart` after event parsing: answer the channel
(with retries; `answerOk` is the overall outcome), then `createChannel`; on
any failure the handler logs and returns. -/
def handleStasisStart (env : EngineEnv) (answerOk : Bool) (channelID : String)
    (chans : List String) : List Action × List String :=
  if answerOk then
    let r := createChannel env channelID chans
    (r.1, r.2.1)
  else ([], chans)

/-- Engine outcomes where everything up to and including bridge creation
succeeds and `CreateExternalMedia` fails. -/
def envExtMediaFails : EngineEnv :=
  ⟨some 4500, some 4000, some "bridge-1", none, fun _ _ => true⟩

/-- Engine outcomes where the external-media channel is created and its
bridge attach fails. -/
def envAttachFails : EngineEnv :=
  ⟨some 4500, some 4000, some "bridge-1", some "em-1", fun _ c => !(c = "em-1")⟩

/-- Engine outcomes with the port pool exhausted. -/
def envExhausted : EngineEnv :=
  ⟨none, some 4000, some "bridge-1", some "em-1", fun _ _ => true⟩

/-- Metrics-store state with two outbound packets, one dropped and one
late packet recorded for channel "ch", and no latency sample. -/
def metricsNoSamples : Metrics :=
  recordLatePacket
    (recordDroppedPackets
      (recordOutgoingPacket (recordOutgoingPacket Metrics.new "ch") "ch") "ch" 1) "ch"

/-- `metricsNoSamples` after one latency sample has been recorded. -/
def metricsOneSample : Metrics := recordLatency metricsNoSamples "ch" 5

/-! ## Theorems -/

/-- C1: the claim requires that for last = 0xFFFE and next = 0x0000 the
computed gap is exactly 1; the code computes `(0xFFFF - 0xFFFE) + 0 - 1 = 0`.
The state below is reached from a fresh tracker by one in-order update with
sequence 0xFFFE; the wrap update with sequence 0 then returns a gap of 0,
not the 1 the claim (and the spec's boundary test) demands. -/
theorem c1_wrap_gap_is_zero_not_one :
    (trackIncoming (trackIncoming SequenceTracker.new 0xFFFE).1 0).2 = 0 ∧
      (trackIncoming (trackIncoming SequenceTracker.new 0xFFFE).1 0).2 ≠ 1 := by
  constructor <;> decide

/-- C4: the claim requires the last-seen inbound sequence number to be
advanced on every update so that a gap is never counted twice.  In the code
the early `return dropped` skips the `lastIncomingSeq = seq` assignment:
after in-order update 5, the update with sequence 7 reports the gap 1
(packet 6) but leaves the last-seen value at 5, so the update with
sequence 8 reports a gap of 2 - recounting packet 6 and counting the
received packet 7 as dropped - for a running total of 3 although only one
packet is missing. -/
theorem c4_gap_update_does_not_advance_last_seen :
    (trackIncomingRun SequenceTracker.new [5, 7, 8]).2 = [0, 1, 2] ∧
      (trackIncomingRun SequenceTracker.new [5, 7, 8]).1.lastIncomingSeq = 5 ∧
      (trackIncomingRun SequenceTracker.new [5, 7, 8]).1.droppedCount = 3 := by
  refine ⟨?_, ?_, ?_⟩ <;> decide

/-- C7 counterexample: the claim includes a first media timestamp of 0.
After the first packet (timestamp 0, instant 100) has set the base pair,
the second packet (timestamp 160, instant 200) finds `baseTimestamp == 0`
again - timestamp 0 is conflated with the unset sentinel - and overwrites
both base fields, so they do change after having been set by the first
outbound packet. -/
theorem c7_zero_timestamp_base_is_reset :
    ((calculateDelay (calculateDelay (PacketPacer.new 8000) 0 100).1 160 200).1.baseTimestamp ≠
        (calculateDelay (PacketPacer.new 8000) 0 100).1.baseTimestamp) ∧
      ((calculateDelay (calculateDelay (PacketPacer.new 8000) 0 100).1 160 200).1.baseTime ≠
        (calculateDelay (PacketPacer.new 8000) 0 100).1.baseTime) := by
  constructor <;> decide

/-- C7 amended: once the base pair holds a nonzero `baseTimestamp` - i.e.
was set by a first packet whose media timestamp is nonzero - neither
`CalculateDelay` nor `checkLatePacket` ever changes it again, over any
further packet stream. -/
theorem c7_base_immutable_once_nonzero (p : PacketPacer) (w : LateBase)
    (l : List (Nat × Nat)) (l2 : List (Nat × Nat × Nat))
    (hp : p.baseTimestamp ≠ 0) (hw : w.baseTimestamp ≠ 0) :
    (runPacer p l).baseTimestamp = p.baseTimestamp ∧
      (runPacer p l).baseTime = p.baseTime ∧
      (runLateBase w l2).baseTimestamp = w.baseTimestamp ∧
      (runLateBase w l2).baseTime = w.baseTime := by
  have hstep : ∀ (q : PacketPacer) (ts now : Nat), q.baseTimestamp ≠ 0 →
      (calculateDelay q ts now).1 = q := by
    intro q ts now hq
    unfold calculateDelay
    simp only [if_neg hq]
    split <;> rfl
  have hstepL : ∀ (q : LateBase) (ts rt now : Nat), q.baseTimestamp ≠ 0 →
      (checkLatePacket q ts rt now).1 = q := by
    intro q ts rt now hq
    unfold checkLatePacket
    simp only [if_neg hq]
  have hrun : runPacer p l = p := by
    induction l generalizing p with
    | nil => rfl
    | cons x xs ih =>
      have h1 := hstep p x.1 x.2 hp
      simp only [runPacer, List.foldl_cons] at *
      rw [h1]
      exact ih p hp
  have hrunL : runLateBase w l2 = w := by
    induction l2 generalizing w with
    | nil => rfl
    | cons x xs ih =>
      have h1 := hstepL w x.1 x.2.1 x.2.2 hw
      simp only [runLateBase, List.foldl_cons] at *
      rw [h1]
      exact ih w hw
  rw [hrun, hrunL]
  exact ⟨rfl, rfl, rfl, rfl⟩

/-- C7 amended, witness: a pacer and a late base with nonzero base
timestamp survive a concrete packet stream unchanged. -/
theorem c7_base_immutable_once_nonzero_witness :
    (runPacer ⟨160, 100, 8000⟩ [(320, 120), (480, 140)]).baseTimestamp = 160 ∧
      (runLateBase ⟨160, 100⟩ [(320, 125, 125)]).baseTime = 100 := by
  have h := c7_base_immutable_once_nonzero ⟨160, 100, 8000⟩ ⟨160, 100⟩
    [(320, 120), (480, 140)] [(320, 125, 125)] (by decide) (by decide)
  exact ⟨h.1, h.2.2.2⟩

/-- C6 counterexample: the second `Stop` on a worker does not complete
normally - it panics with "close of closed channel" - so the stop path is
not idempotent as claimed. -/
theorem c6_second_stop_panics :
    (workerStop (workerStop ⟨false⟩).1).2 = StopOutcome.panicCloseOfClosedChannel ∧
      (workerStop (workerStop ⟨false⟩).1).2 ≠ StopOutcome.stopped := by
  constructor <;> decide

/-- C6 amended: the first `Stop` on a running worker completes normally and
closes the stop channel; any `Stop` on an already-stopped worker panics
(close of closed channel) instead of being a no-op. -/
theorem c6_stop_not_idempotent (w : WorkerCtl) (h : w.stopChanClosed = true) :
    (workerStop ⟨false⟩).2 = StopOutcome.stopped ∧
      (workerStop ⟨false⟩).1.stopChanClosed = true ∧
      (workerStop w).2 = StopOutcome.panicCloseOfClosedChannel := by
  refine ⟨rfl, rfl, ?_⟩
  unfold workerStop
  rw [h]
  rfl

/-- C6 amended, witness at the stopped worker. -/
theorem c6_stop_not_idempotent_witness :
    (workerStop ⟨true⟩).2 = StopOutcome.panicCloseOfClosedChannel :=
  (c6_stop_not_idempotent ⟨true⟩ rfl).2.2

theorem lookupSeq_eq_none (l : List (Nat × Nat)) (seq : Nat) :
    lookupSeq l seq = none ↔ ∀ p ∈ l, p.1 ≠ seq := by
  induction l with
  | nil => simp [lookupSeq]
  | cons q rest ih =>
    obtain ⟨k, v⟩ := q
    simp only [lookupSeq]
    by_cases hk : k = seq
    · rw [if_pos hk]
      constructor
      · intro h; cases h
      · intro h
        exact absurd hk (h (k, v) (List.mem_cons_self _ _))
    · rw [if_neg hk, ih]
      constructor
      · intro hall p hp
        rcases List.mem_cons.mp hp with h1 | h1
        · rw [h1]; exact hk
        · exact hall p h1
      · intro hall p hp
        exact hall p (List.mem_cons_of_mem _ hp)

theorem lookupSeq_mem (l : List (Nat × Nat)) (seq st : Nat)
    (h : lookupSeq l seq = some st) : (seq, st) ∈ l := by
  induction l with
  | nil => cases h
  | cons q rest ih =>
    obtain ⟨k, v⟩ := q
    simp only [lookupSeq] at h
    by_cases hk : k = seq
    · rw [if_pos hk] at h
      injection h with h2
      rw [← hk, ← h2]
      exact List.mem_cons_self _ _
    · rw [if_neg hk] at h
      exact List.mem_cons_of_mem _ (ih h)

theorem lookupSeq_eraseSeq_self (l : List (Nat × Nat)) (seq : Nat)
    (h : (l.map Prod.fst).Nodup) : lookupSeq (eraseSeq l seq) seq = none := by
  rw [lookupSeq_eq_none]
  induction l with
  | nil => intro p hp; cases hp
  | cons q rest ih =>
    obtain ⟨k, v⟩ := q
    rw [List.map_cons, List.nodup_cons] at h
    by_cases hk : k = seq
    · rw [show eraseSeq ((k, v) :: rest) seq = rest by simp [eraseSeq, hk]]
      intro p hp hpk
      refine h.1 (List.mem_map.mpr ⟨p, hp, ?_⟩)
      rw [hpk, hk]
    · rw [show eraseSeq ((k, v) :: rest) seq = (k, v) :: eraseSeq rest seq by
        simp [eraseSeq, hk]]
      intro p hp
      rcases List.mem_cons.mp hp with h1 | h1
      · rw [h1]; exact hk
      · exact ih h.2 p h1

/-- C8: for every tracker state with unique keys whose stored send instants
are at or before the current instant `now`, a `GetLatency` lookup of
sequence `seq` either finds and consumes the entry - the state keeps no
binding for `seq`, the returned RTT equals `now - sendTime` and is >= 0,
and a second lookup of the same sequence (at any later instant) reports not
found - or reports not found with the state unchanged, in which case no
entry for `seq` exists and no RTT is recorded; moreover, `RecordSent`
housekeeping leaves no entry whose send instant is strictly older than
3 seconds before its clock read. -/
theorem c8_correlator_consume_once (t : LatencyTracker) (seq now now2 : Nat)
    (hkeys : (t.sentTimes.map Prod.fst).Nodup)
    (hmono : ∀ p ∈ t.sentTimes, p.2 ≤ now) :
    (∀ st, lookupSeq t.sentTimes seq = some st →
      (getLatency t seq now).1 = ((now : Int) - (st : Int), true) ∧
        0 ≤ ((getLatency t seq now).1).1 ∧
        lookupSeq (getLatency t seq now).2.sentTimes seq = none ∧
        ((getLatency (getLatency t seq now).2 seq now2).1).2 = false) ∧
      (lookupSeq t.sentTimes seq = none →
        (getLatency t seq now).1 = (0, false) ∧ (getLatency t seq now).2 = t) ∧
      (∀ s sendTime rnow : Nat, ∀ p ∈ (recordSent t s sendTime rnow).sentTimes,
        ¬ p.2 < rnow - 3000000000) := by
  refine ⟨?_, ?_, ?_⟩
  · intro st hst
    have hmem : (seq, st) ∈ t.sentTimes := lookupSeq_mem _ _ _ hst
    have hle : st ≤ now := hmono (seq, st) hmem
    have hg : getLatency t seq now =
        (((now : Int) - (st : Int), true), ⟨eraseSeq t.sentTimes seq⟩) := by
      unfold getLatency
      rw [hst]
    have herase : lookupSeq (eraseSeq t.sentTimes seq) seq = none :=
      lookupSeq_eraseSeq_self t.sentTimes seq hkeys
    refine ⟨by rw [hg], ?_, ?_, ?_⟩
    · rw [hg]
      have : (0 : Int) ≤ (now : Int) - (st : Int) := by
        omega
      exact this
    · rw [hg]
      exact herase
    · rw [hg]
      unfold getLatency
      rw [herase]
  · intro hnone
    constructor
    · unfold getLatency; rw [hnone]
    · unfold getLatency; rw [hnone]
  · intro s sendTime rnow p hp
    have := List.of_mem_filter hp
    simpa using this

/-- C8 witness: a concrete tracker holding sequence 7 sent at instant 100;
lookup at instant 150 yields RTT 50 >= 0 and a repeated lookup at 160
reports not found. -/
theorem c8_correlator_consume_once_witness :
    0 ≤ ((getLatency ⟨[(7, 100)]⟩ 7 150).1).1 ∧
      ((getLatency (getLatency ⟨[(7, 100)]⟩ 7 150).2 7 160).1).2 = false := by
  have h := (c8_correlator_consume_once ⟨[(7, 100)]⟩ 7 150 160 (by decide)
    (by intro p hp; simp at hp; rw [hp]; decide)).1 100 rfl
  exact ⟨h.2.1, h.2.2.2⟩

theorem statsFold_eq (l : List ChannelMetrics) (a : List Rat × Nat × Nat × Nat × Nat) :
    statsFold l a =
      (a.1 ++ (l.map ChannelMetrics.latencies).flatten,
        a.2.1 + l.length,
        a.2.2.1 + (l.map ChannelMetrics.droppedPackets).sum,
        a.2.2.2.1 + (l.map ChannelMetrics.latePackets).sum,
        a.2.2.2.2 + (l.map ChannelMetrics.outgoingPackets).sum) := by
  induction l generalizing a with
  | nil => simp [statsFold]
  | cons c rest ih =>
    simp only [statsFold, List.foldl_cons] at *
    rw [ih]
    simp only [List.map_cons, List.flatten_cons, List.sum_cons, List.length_cons,
      Prod.mk.injEq]
    refine ⟨by rw [List.append_assoc], by omega, by omega, by omega, by omega⟩

theorem getGlobalStats_activeChannels (m : Metrics) :
    (getGlobalStats m).activeChannels = m.channels.length := by
  unfold getGlobalStats
  rw [statsFold_eq]
  simp only [List.nil_append, Nat.zero_add]
  split <;> rfl

theorem getGlobalStats_ratios (m : Metrics) :
    (getGlobalStats m).lateRatio =
      (if 0 < (allLatenciesOf m).length then
        (if 0 < sumOutgoing m then (sumLate m : Rat) / (sumOutgoing m : Rat) else 0)
       else 0) ∧
    (getGlobalStats m).packetLossRatio =
      (if 0 < (allLatenciesOf m).length then
        (if 0 < sumOutgoing m then (sumDropped m : Rat) / (sumOutgoing m : Rat) else 0)
       else 0) := by
  unfold getGlobalStats
  rw [statsFold_eq]
  simp only [List.nil_append, Nat.zero_add]
  unfold allLatenciesOf sumOutgoing sumLate sumDropped
  by_cases h : 0 < ((m.channels.map ChannelMetrics.latencies).flatten).length
  · rw [if_pos h, if_pos h, if_pos h]
    exact ⟨rfl, rfl⟩
  · rw [if_neg h, if_neg h, if_neg h]
    exact ⟨rfl, rfl⟩

/-- C3 counterexample: a reachable metrics state with two outbound packets,
one dropped and one late packet for channel "ch" and no latency sample.
The claimed formula gives loss and late ratio 1/2 with a nonzero
denominator, but the rollup reports both ratios as 0 because the ratio
computation in `GetGlobalStats` is nested inside the
`len(allLatencies) > 0` block. -/
theorem c3_positive_counts_no_sample_ratios_zero :
    (getGlobalStats metricsNoSamples).packetLossRatio = 0 ∧
      (getGlobalStats metricsNoSamples).lateRatio = 0 ∧
      sumOutgoing metricsNoSamples = 2 ∧
      sumDropped metricsNoSamples = 1 ∧
      sumLate metricsNoSamples = 1 ∧
      (sumDropped metricsNoSamples : Rat) / (sumOutgoing metricsNoSamples : Rat) ≠ 0 := by
  have hd : sumDropped metricsNoSamples = 1 := by decide
  have ho : sumOutgoing metricsNoSamples = 2 := by decide
  refine ⟨by decide, by decide, ho, hd, by decide, ?_⟩
  rw [hd, ho]
  norm_num

/-- C3 amended: the global rollup reports
late_ratio = (Σ late) / (Σ outbound) and
loss_ratio = (Σ dropped) / (Σ outbound) only in states holding at least one
latency sample and a positive outbound sum; whenever the outbound sum is
zero, or no latency sample has been recorded (even with positive outbound
and dropped/late counts), both ratios are reported as 0. -/
theorem c3_ratio_guard (m : Metrics) :
    (sumOutgoing m = 0 →
      (getGlobalStats m).lateRatio = 0 ∧ (getGlobalStats m).packetLossRatio = 0) ∧
      (allLatenciesOf m = [] →
        (getGlobalStats m).lateRatio = 0 ∧ (getGlobalStats m).packetLossRatio = 0) ∧
      (allLatenciesOf m ≠ [] → sumOutgoing m ≠ 0 →
        (getGlobalStats m).lateRatio = (sumLate m : Rat) / (sumOutgoing m : Rat) ∧
          (getGlobalStats m).packetLossRatio =
            (sumDropped m : Rat) / (sumOutgoing m : Rat)) := by
  obtain ⟨hl, hp⟩ := getGlobalStats_ratios m
  refine ⟨?_, ?_, ?_⟩
  · intro h0
    rw [hl, hp, h0]
    simp
  · intro hnil
    rw [hl, hp, hnil]
    simp
  · intro hnil h0
    have hlen : 0 < (allLatenciesOf m).length :=
      List.length_pos.mpr hnil
    have hout : 0 < sumOutgoing m := Nat.pos_of_ne_zero h0
    rw [hl, hp, if_pos hlen, if_pos hlen, if_pos hout, if_pos hout]
    exact ⟨rfl, rfl⟩

/-- C3 amended, witness: with one latency sample recorded on top of the
counterexample state, the reported late ratio is the claimed quotient. -/
theorem c3_ratio_guard_witness :
    (getGlobalStats metricsOneSample).lateRatio =
      (sumLate metricsOneSample : Rat) / (sumOutgoing metricsOneSample : Rat) ∧
      (getGlobalStats metricsOneSample).lateRatio = (1 : Rat) / 2 := by
  have h := (c3_ratio_guard metricsOneSample).2.2 (by decide) (by decide)
  have hl : sumLate metricsOneSample = 1 := by decide
  have ho : sumOutgoing metricsOneSample = 2 := by decide
  refine ⟨h.1, ?_⟩
  rw [h.1, hl, ho]
  norm_num

theorem updateChannel_channelID (l : List ChannelMetrics) (id : String)
    (f : ChannelMetrics → ChannelMetrics)
    (hf : ∀ c, (f c).channelID = c.channelID) :
    (updateChannel l id f).map ChannelMetrics.channelID =
      addIfAbsent (l.map ChannelMetrics.channelID) id := by
  induction l with
  | nil =>
    simp [updateChannel, addIfAbsent, hf, ChannelMetrics.fresh]
  | cons c rest ih =>
    by_cases hc : c.channelID = id
    · rw [show updateChannel (c :: rest) id f = f c :: rest by
        simp [updateChannel, hc]]
      rw [List.map_cons, hf c, List.map_cons]
      unfold addIfAbsent
      rw [if_pos (by rw [hc]; exact List.mem_cons_self _ _)]
    · rw [show updateChannel (c :: rest) id f = c :: updateChannel rest id f by
        simp [updateChannel, hc]]
      rw [List.map_cons, ih, List.map_cons]
      unfold addIfAbsent
      have hne : id ≠ c.channelID := fun he => hc he.symm
      by_cases hm : id ∈ rest.map ChannelMetrics.channelID
      · rw [if_pos hm, if_pos (List.mem_cons_of_mem _ hm)]
      · rw [if_neg hm, if_neg (by
          intro hmem
          rcases List.mem_cons.mp hmem with h1 | h1
          · exact hne h1
          · exact hm h1)]
        rw [List.cons_append]

theorem applyMetricsOp_channelID (m : Metrics) (op : MetricsOp) :
    (applyMetricsOp m op).channels.map ChannelMetrics.channelID =
      (match touchedId op with
        | some id => addIfAbsent (m.channels.map ChannelMetrics.channelID) id
        | none => m.channels.map ChannelMetrics.channelID) := by
  cases op with
  | recLatency id v =>
    exact updateChannel_channelID m.channels id _ (fun c => rfl)
  | recDropped id count =>
    exact updateChannel_channelID m.channels id _ (fun c => rfl)
  | recOutgoing id =>
    exact updateChannel_channelID m.channels id _ (fun c => rfl)
  | recLate id =>
    exact updateChannel_channelID m.channels id _ (fun c => rfl)
  | markStarted id => rfl
  | channelCleanup id => rfl

theorem runMetricsOps_channelID (ops : List MetricsOp) (m : Metrics) :
    (runMetricsOps m ops).channels.map ChannelMetrics.channelID =
      (ops.filterMap touchedId).foldl addIfAbsent
        (m.channels.map ChannelMetrics.channelID) := by
  induction ops generalizing m with
  | nil => rfl
  | cons op rest ih =>
    simp only [runMetricsOps, List.foldl_cons] at *
    rw [ih (applyMetricsOp m op), List.filterMap_cons]
    have hop := applyMetricsOp_channelID m op
    cases htouch : touchedId op with
    | some id =>
      rw [htouch] at hop
      rw [hop, List.foldl_cons]
    | none =>
      rw [htouch] at hop
      rw [hop]

theorem addIfAbsent_length (l : List String) (x : String) :
    l.length ≤ (addIfAbsent l x).length := by
  unfold addIfAbsent
  split
  · exact le_rfl
  · simp

theorem foldl_addIfAbsent_length (l : List String) (acc : List String) :
    acc.length ≤ (l.foldl addIfAbsent acc).length := by
  induction l generalizing acc with
  | nil => exact le_rfl
  | cons x xs ih =>
    exact le_trans (addIfAbsent_length acc x) (ih (addIfAbsent acc x))

/-- C10: the metrics store never removes a per-channel entry - channel
cleanup does not touch the store - so after any operation sequence the
channel-id column of the store is exactly the first-seen list of the
distinct ids that ever recorded a metric, the rollup's active_channels
equals the number of those distinct ids, and extending the operation
sequence (with cleanups, end-of-call or anything else) never decreases
active_channels. -/
theorem c10_active_channels_never_shrinks (ops extra : List MetricsOp) :
    (runMetricsOps Metrics.new ops).channels.map ChannelMetrics.channelID =
      firstSeen (ops.filterMap touchedId) ∧
      (getGlobalStats (runMetricsOps Metrics.new ops)).activeChannels =
        (firstSeen (ops.filterMap touchedId)).length ∧
      (getGlobalStats (runMetricsOps Metrics.new ops)).activeChannels ≤
        (getGlobalStats (runMetricsOps Metrics.new (ops ++ extra))).activeChannels := by
  have hkeys : ∀ l : List MetricsOp,
      (runMetricsOps Metrics.new l).channels.map ChannelMetrics.channelID =
        firstSeen (l.filterMap touchedId) := by
    intro l
    rw [runMetricsOps_channelID l Metrics.new]
    rfl
  have hlen : ∀ l : List MetricsOp,
      (getGlobalStats (runMetricsOps Metrics.new l)).activeChannels =
        (firstSeen (l.filterMap touchedId)).length := by
    intro l
    rw [getGlobalStats_activeChannels, ← hkeys l, List.length_map]
  refine ⟨hkeys ops, hlen ops, ?_⟩
  rw [hlen ops, hlen (ops ++ extra), List.filterMap_append]
  unfold firstSeen
  rw [List.foldl_append]
  exact foldl_addIfAbsent_length _ _

theorem lookupCh_eq_none (l : List (String × Nat)) (id : String) :
    lookupCh l id = none ↔ ∀ p ∈ l, p.1 ≠ id := by
  induction l with
  | nil => simp [lookupCh]
  | cons q rest ih =>
    obtain ⟨k, v⟩ := q
    simp only [lookupCh]
    by_cases hk : k = id
    · rw [if_pos hk]
      constructor
      · intro h; cases h
      · intro h
        exact absurd hk (h (k, v) (List.mem_cons_self _ _))
    · rw [if_neg hk, ih]
      constructor
      · intro hall p hp
        rcases List.mem_cons.mp hp with h1 | h1
        · rw [h1]; exact hk
        · exact hall p h1
      · intro hall p hp
        exact hall p (List.mem_cons_of_mem _ hp)

theorem lookupCh_mem (l : List (String × Nat)) (id : String) (r : Nat)
    (h : lookupCh l id = some r) : (id, r) ∈ l := by
  induction l with
  | nil => cases h
  | cons q rest ih =>
    obtain ⟨k, v⟩ := q
    simp only [lookupCh] at h
    by_cases hk : k = id
    · rw [if_pos hk] at h
      injection h with h2
      rw [← hk, ← h2]
      exact List.mem_cons_self _ _
    · rw [if_neg hk] at h
      exact List.mem_cons_of_mem _ (ih h)

theorem mem_eraseCh (l : List (String × Nat)) (id : String) (p : String × Nat)
    (hp : p ∈ eraseCh l id) : p ∈ l := by
  induction l with
  | nil => cases hp
  | cons q rest ih =>
    obtain ⟨k, v⟩ := q
    by_cases hk : k = id
    · rw [show eraseCh ((k, v) :: rest) id = rest by simp [eraseCh, hk]] at hp
      exact List.mem_cons_of_mem _ hp
    · rw [show eraseCh ((k, v) :: rest) id = (k, v) :: eraseCh rest id by
        simp [eraseCh, hk]] at hp
      rcases List.mem_cons.mp hp with h1 | h1
      · rw [h1]; exact List.mem_cons_self _ _
      · exact List.mem_cons_of_mem _ (ih h1)

theorem map_fst_eraseCh_sublist (l : List (String × Nat)) (id : String) :
    ((eraseCh l id).map Prod.fst).Sublist (l.map Prod.fst) := by
  induction l with
  | nil => exact List.Sublist.refl _
  | cons q rest ih =>
    obtain ⟨k, v⟩ := q
    by_cases hk : k = id
    · rw [show eraseCh ((k, v) :: rest) id = rest by simp [eraseCh, hk]]
      exact (List.Sublist.refl _).cons _
    · rw [show eraseCh ((k, v) :: rest) id = (k, v) :: eraseCh rest id by
        simp [eraseCh, hk]]
      exact ih.cons₂ _

theorem lookupCh_eraseCh_self (l : List (String × Nat)) (id : String)
    (h : (l.map Prod.fst).Nodup) : lookupCh (eraseCh l id) id = none := by
  rw [lookupCh_eq_none]
  induction l with
  | nil => intro p hp; cases hp
  | cons q rest ih =>
    obtain ⟨k, v⟩ := q
    rw [List.map_cons, List.nodup_cons] at h
    by_cases hk : k = id
    · rw [show eraseCh ((k, v) :: rest) id = rest by simp [eraseCh, hk]]
      intro p hp hpk
      refine h.1 (List.mem_map.mpr ⟨p, hp, ?_⟩)
      rw [hpk, hk]
    · rw [show eraseCh ((k, v) :: rest) id = (k, v) :: eraseCh rest id by
        simp [eraseCh, hk]]
      intro p hp
      rcases List.mem_cons.mp hp with h1 | h1
      · rw [h1]; exact hk
      · exact ih h.2 p h1

theorem lookupCh_eraseCh_ne (l : List (String × Nat)) (a b : String)
    (h : a ≠ b) : lookupCh (eraseCh l a) b = lookupCh l b := by
  induction l with
  | nil => rfl
  | cons q rest ih =>
    obtain ⟨k, v⟩ := q
    by_cases hk : k = a
    · rw [show eraseCh ((k, v) :: rest) a = rest by simp [eraseCh, hk]]
      have hkb : k ≠ b := by rw [hk]; exact h
      simp only [lookupCh]
      rw [if_neg hkb]
    · rw [show eraseCh ((k, v) :: rest) a = (k, v) :: eraseCh rest a by
        simp [eraseCh, hk]]
      simp only [lookupCh]
      by_cases hkb : k = b
      · rw [if_pos hkb, if_pos hkb]
      · rw [if_neg hkb, if_neg hkb]
        exact ih

theorem runCleanups_cons (s : ServiceState) (c : String) (rest : List String) :
    runCleanups s (c :: rest) = runCleanups (cleanupChannel s c) rest := rfl

theorem runCleanups_chans_subset (calls : List String) (s : ServiceState) :
    ∀ p ∈ (runCleanups s calls).chans, p ∈ s.chans := by
  induction calls generalizing s with
  | nil => intro p hp; exact hp
  | cons c rest ih =>
    intro p hp
    rw [runCleanups_cons] at hp
    have hstep : ∀ q ∈ (cleanupChannel s c).chans, q ∈ s.chans := by
      intro q hq
      unfold cleanupChannel at hq
      cases hx : lookupCh s.chans c with
      | some r =>
        rw [hx] at hq
        exact mem_eraseCh _ _ _ hq
      | none =>
        rw [hx] at hq
        exact hq
    exact hstep p (ih (cleanupChannel s c) p hp)

theorem runCleanups_lookup_none (calls : List String) (s : ServiceState)
    (id : String) (h : lookupCh s.chans id = none) :
    lookupCh (runCleanups s calls).chans id = none := by
  rw [lookupCh_eq_none] at h ⊢
  intro p hp
  exact h p (runCleanups_chans_subset calls s p hp)

theorem cleaned_count_stable (calls : List String) (s : ServiceState) (rid : Nat)
    (h : ∀ p ∈ s.chans, p.2 ≠ rid) :
    (runCleanups s calls).cleaned.count rid = s.cleaned.count rid := by
  induction calls generalizing s with
  | nil => rfl
  | cons c rest ih =>
    rw [runCleanups_cons]
    cases hc : lookupCh s.chans c with
    | none =>
      rw [show cleanupChannel s c = s by unfold cleanupChannel; rw [hc]]
      exact ih s h
    | some r =>
      have hr : r ≠ rid := h (c, r) (lookupCh_mem _ _ _ hc)
      rw [show cleanupChannel s c = ⟨eraseCh s.chans c, s.cleaned ++ [r]⟩ by
        unfold cleanupChannel; rw [hc]]
      rw [ih ⟨eraseCh s.chans c, s.cleaned ++ [r]⟩
        (fun p hp => h p (mem_eraseCh _ _ _ hp))]
      simp [List.count_append, List.count_singleton, hr]

/-- C9: for every lifecycle state whose active map holds channel `id` with
record identity `rid` (record identities are unique and `rid` has not been
cleaned yet), and for every interleaving of `cleanupChannel` calls from the
end handler, repeated end events and the zombie scrubber that includes at
least one call for `id`, the record's cleanup function runs exactly once -
removal via the atomic `LoadAndDelete` is single-winner and only the winner
invokes cleanup - and the record is gone from the active map afterwards. -/
theorem c9_cleanup_runs_exactly_once (s : ServiceState) (id : String) (rid : Nat)
    (calls : List String)
    (hfound : lookupCh s.chans id = some rid)
    (hkeys : (s.chans.map Prod.fst).Nodup)
    (hrid : ∀ p ∈ s.chans, p.2 = rid → p.1 = id)
    (hclean : rid ∉ s.cleaned)
    (hcall : id ∈ calls) :
    (runCleanups s calls).cleaned.count rid = 1 ∧
      lookupCh (runCleanups s calls).chans id = none := by
  induction calls generalizing s with
  | nil => cases hcall
  | cons c rest ih =>
    rw [runCleanups_cons]
    by_cases hc : c = id
    · subst hc
      rw [show cleanupChannel s c = ⟨eraseCh s.chans c, s.cleaned ++ [rid]⟩ by
        unfold cleanupChannel; rw [hfound]]
      have hgone : lookupCh (eraseCh s.chans c) c = none :=
        lookupCh_eraseCh_self s.chans c hkeys
      have h2 : ∀ p ∈ (⟨eraseCh s.chans c, s.cleaned ++ [rid]⟩ : ServiceState).chans,
          p.2 ≠ rid := by
        intro p hp hpr
        have hpk : p.1 = c := hrid p (mem_eraseCh _ _ _ hp) hpr
        rw [lookupCh_eq_none] at hgone
        exact hgone p hp hpk
      constructor
      · rw [cleaned_count_stable rest _ rid h2]
        simp only [List.count_append, List.count_singleton]
        rw [List.count_eq_zero.mpr hclean]
        simp
      · exact runCleanups_lookup_none rest _ c hgone
    · cases hcc : lookupCh s.chans c with
      | none =>
        rw [show cleanupChannel s c = s by unfold cleanupChannel; rw [hcc]]
        refine ih s hfound hkeys hrid hclean ?_
        rcases List.mem_cons.mp hcall with h1 | h1
        · exact absurd h1.symm hc
        · exact h1
      | some r =>
        rw [show cleanupChannel s c = ⟨eraseCh s.chans c, s.cleaned ++ [r]⟩ by
          unfold cleanupChannel; rw [hcc]]
        have hr : r ≠ rid := by
          intro he
          exact hc (hrid (c, r) (lookupCh_mem _ _ _ hcc) he)
        refine ih ⟨eraseCh s.chans c, s.cleaned ++ [r]⟩ ?_ ?_ ?_ ?_ ?_
        · rw [show (⟨eraseCh s.chans c, s.cleaned ++ [r]⟩ : ServiceState).chans =
            eraseCh s.chans c from rfl]
          rw [lookupCh_eraseCh_ne s.chans c id hc]
          exact hfound
        · exact (map_fst_eraseCh_sublist s.chans c).nodup hkeys
        · intro p hp
          exact hrid p (mem_eraseCh _ _ _ hp)
        · intro hmem
          rcases List.mem_append.mp hmem with h1 | h1
          · exact hclean h1
          · rw [List.mem_singleton] at h1
            exact hr h1.symm
        · rcases List.mem_cons.mp hcall with h1 | h1
          · exact absurd h1.symm hc
          · exact h1

/-- C9 witness: one stored record for channel "a" (identity 1); two racing
end events for "a" and an unrelated call for "b" run the cleanup exactly
once and leave "a" out of the active map. -/
theorem c9_cleanup_runs_exactly_once_witness :
    (runCleanups ⟨[("a", 1)], []⟩ ["a", "a", "b"]).cleaned.count 1 = 1 ∧
      lookupCh (runCleanups ⟨[("a", 1)], []⟩ ["a", "a", "b"]).chans "a" = none :=
  c9_cleanup_runs_exactly_once ⟨[("a", 1)], []⟩ "a" 1 ["a", "a", "b"]
    rfl (by decide) (by decide) (by decide) (by decide)

/-- C2: the claim requires every post-allocation failure to release the
port and best-effort tear down the resources already created.  When
`CreateExternalMedia` fails after the bridge was created, the code's only
action is the port release: no `DeleteBridge` for the created bridge is
issued; when the external-media bridge attach fails, neither the bridge
deletion nor the hangup of the created external-media channel is issued. -/
theorem c2_error_paths_skip_teardown :
    createChannel envExtMediaFails "chan-1" [] = ([Action.releasePort 4500], [], false) ∧
      Action.deleteBridge "bridge-1" ∉ (createChannel envExtMediaFails "chan-1" []).1 ∧
      createChannel envAttachFails "chan-1" [] = ([Action.releasePort 4500], [], false) ∧
      Action.deleteBridge "bridge-1" ∉ (createChannel envAttachFails "chan-1" []).1 ∧
      Action.hangupChannel "em-1" ∉ (createChannel envAttachFails "chan-1" []).1 := by
  refine ⟨?_, ?_, ?_, ?_, ?_⟩ <;> decide

/-- C5 counterexample: with the port pool exhausted the begin handler
performs no action at all - in particular it does not hang the call up, as
the claim requires - and stores nothing in the active map. -/
theorem c5_exhaustion_does_not_hang_up :
    handleStasisStart envExhausted true "chan-2" [] = ([], []) ∧
      Action.hangupChannel "chan-2" ∉ (handleStasisStart envExhausted true "chan-2" []).1 := by
  constructor <;> decide

/-- C5 amended: when port allocation fails with Exhausted, the begin
handler surfaces the error and returns without performing any action - the
call is not hung up - and leaves no ChannelRecord for that channel in the
active map. -/
theorem c5_exhaustion_no_record (env : EngineEnv) (id : String)
    (chans : List String) (hport : env.portAlloc = none) (hid : id ∉ chans) :
    (handleStasisStart env true id chans).1 = [] ∧
      (handleStasisStart env true id chans).2 = chans ∧
      id ∉ (handleStasisStart env true id chans).2 := by
  unfold handleStasisStart createChannel
  rw [hport]
  simp [hid]

/-- C5 amended, witness at a concrete exhausted pool. -/
theorem c5_exhaustion_no_record_witness :
    (handleStasisStart envExhausted true "chan-9" ["other"]).1 = [] ∧
      "chan-9" ∉ (handleStasisStart envExhausted true "chan-9" ["other"]).2 := by
  have h := c5_exhaustion_no_record envExhausted "chan-9" ["other"] rfl (by decide)
  exact ⟨h.1, h.2.2⟩

end ARE
